import Mathlib

/-!
Shallow embedding of `sqlx-postgres/src/message/replication.rs`: the decoders
for the Postgres streaming-replication wire protocol (physical messages
`XLogData` / `PrimaryKeepalive` and the logical-replication message family).

A buffer is a list of bytes (`Nat`, wire values are `< 256`).  The Rust code
reads through `bytes::Buf`, whose fixed-width getters (`get_u8`, `get_i16`,
`get_i32`, `get_i64`) panic when fewer bytes remain than the read requires,
and it converts signed counts/lengths to `usize` (`n_cols as usize`,
`len as usize`) before allocating, which panics with a capacity overflow when
the signed value is negative.  To state claims about those behaviours the
outcome type distinguishes a typed error from a Rust panic/abort.
-/

namespace Pg

/-- Byte buffer: the contents of a `Bytes` value, as a list of byte values. -/
abbrev Buf := List Nat

/-- The error channel of `sqlx_core::Error` as used by this module: one
constructor per `err_protocol!` site (each carries the byte it formats into
the message, when it formats one), plus the `std::io` error produced by a
failed `read_exact`. -/
inductive Error where
  /-- `err_protocol!("unknown replication message type: {:?}", x as char)` -/
  | unknownReplication (b : Nat)
  /-- `err_protocol!("unknown logical replication message type: {:?}", x as char)` -/
  | unknownLogical (b : Nat)
  /-- `err_protocol!("expected new data")` -/
  | expectedNewData
  /-- `err_protocol!("unknown typle data type: {:?}", x as char)` -/
  | unknownTupleData (b : Nat)
  /-- `std::io::ErrorKind::UnexpectedEof` from `read_exact`, converted into
  `sqlx_core::Error::Io` by `?`. -/
  | ioError
deriving DecidableEq, Repr

/-- Result of running Rust decode code: a value, a returned `Err`, or a Rust
panic/abort (out-of-bounds `bytes::Buf` read, or a `Vec` capacity overflow
from a negative length cast to `usize`). -/
inductive Outcome (α : Type) where
  | ok (a : α)
  | err (e : Error)
  | panic (msg : String)
deriving DecidableEq, Repr

/-- Map over the `ok` value (Rust `Result::map`). -/
def Outcome.map (f : α → β) : Outcome α → Outcome β
  | .ok a => .ok (f a)
  | .err e => .err e
  | .panic s => .panic s

/-- A decoding step over a cursor into a byte buffer: Rust code holding a
`Bytes` (or `&mut Bytes`) value and reading from its front. -/
def Dec (α : Type) := Buf → Outcome (α × Buf)

/-- Return a value, consuming nothing. -/
def Dec.pure (a : α) : Dec α := fun buf => .ok (a, buf)

/-- Sequencing: Rust `?` / statement order.  An `Err` or panic in the first
step aborts the whole decode. -/
def Dec.bind (m : Dec α) (f : α → Dec β) : Dec β := fun buf =>
  match m buf with
  | .ok (a, buf2) => f a buf2
  | .err e => .err e
  | .panic s => .panic s

/-- `return Err(e)`. -/
def Dec.fail (e : Error) : Dec α := fun _ => .err e

/-- A Rust panic (process abort from the decoder's point of view). -/
def Dec.panicWith (s : String) : Dec α := fun _ => .panic s

/-- Big-endian value of a byte list. -/
def beBytes (l : Buf) : Nat := l.foldl (fun acc b => acc * 256 + b) 0

/-- Two's-complement reading of a `bits`-wide unsigned value as signed. -/
def toSigned (bits : Nat) (v : Nat) : Int :=
  if v < 2 ^ (bits - 1) then (v : Int) else (v : Int) - 2 ^ bits

/-- `bytes::Buf` fixed-width big-endian read of `n` bytes: panics (assertion
failure) when fewer than `n` bytes remain. -/
def getBE (n : Nat) : Dec Nat := fun buf =>
  if n ≤ buf.length then .ok (beBytes (buf.take n), buf.drop n)
  else .panic "advance past end"

/-- `Buf::get_u8`. -/
def getU8 : Dec Nat := getBE 1

/-- `Buf::get_i8`. -/
def getI8 : Dec Int := Dec.bind (getBE 1) (fun v => Dec.pure (toSigned 8 v))

/-- `Buf::get_i16` (big-endian). -/
def getI16 : Dec Int := Dec.bind (getBE 2) (fun v => Dec.pure (toSigned 16 v))

/-- `Buf::get_i32` (big-endian). -/
def getI32 : Dec Int := Dec.bind (getBE 4) (fun v => Dec.pure (toSigned 32 v))

/-- `Buf::get_i64` (big-endian). -/
def getI64 : Dec Int := Dec.bind (getBE 8) (fun v => Dec.pure (toSigned 64 v))

/-- `buf.reader().read_exact(&mut data)` for a `data` of length `n`: returns
the bytes read, or `UnexpectedEof` when fewer than `n` remain (no panic). -/
def readExact (n : Nat) : Dec Buf := fun buf =>
  if n ≤ buf.length then .ok (buf.take n, buf.drop n)
  else .err .ioError

/-- `buf.first()`: peek at the next byte without consuming it. -/
def peekFirst : Dec (Option Nat) := fun buf => .ok (buf.head?, buf)

/-- `buf.advance(1)`. -/
def advance1 : Dec Unit := fun buf =>
  match buf with
  | [] => .panic "advance past end"
  | _ :: rest => .ok ((), rest)

/-- Consume the whole remaining buffer (Rust moves `buf` into the struct). -/
def takeRest : Dec Buf := fun buf => .ok (buf, [])

/-- Run a decoder the way `decode_with(mut buf: Bytes)` does: the leftover
cursor is dropped with the owned `Bytes` value. -/
def runDecode (m : Dec α) (buf : Buf) : Outcome α :=
  match m buf with
  | .ok (a, _) => .ok a
  | .err e => .err e
  | .panic s => .panic s

/-- `struct XLogData`. -/
structure XLogData where
  wal_start : Int
  wal_end : Int
  timestamp : Int
  data : Buf
deriving DecidableEq, Repr

/-- `struct PrimaryKeepalive`. -/
structure PrimaryKeepalive where
  wal_end : Int
  timestamp : Int
  reply : Nat
deriving DecidableEq, Repr

/-- `enum Replication`. -/
inductive Replication where
  | XLogData (x : XLogData)
  | PrimaryKeepalive (k : PrimaryKeepalive)
deriving DecidableEq, Repr

/-- `struct Commit`. -/
structure Commit where
  commit_lsn : Int
  flags : Int
  transaction_lsn : Int
  timestamp : Int
deriving DecidableEq, Repr

/-- `enum TupleData`. -/
inductive TupleData where
  | Null
  | UnchangedToast
  | Text (data : Buf)
  | Binary (data : Buf)
deriving DecidableEq, Repr

/-- `struct Tuples(pub Vec<TupleData>)`. -/
structure Tuples where
  data : List TupleData
deriving DecidableEq, Repr

/-- `struct Insert`. -/
structure Insert where
  transaction_id : Int
  oid : Int
  data : Tuples
deriving DecidableEq, Repr

/-- `struct Update` (field order as in the source). -/
structure Update where
  transaction_id : Int
  oid : Int
  old_data : Option Tuples
  key_data : Option Tuples
  new_data : Tuples
deriving DecidableEq, Repr

/-- `struct Delete`. -/
structure Delete where
  transaction_id : Int
  oid : Int
  key_data : Option Tuples
  old_data : Option Tuples
deriving DecidableEq, Repr

/-- `enum LogicalReplication`. -/
inductive LogicalReplication where
  | Begin
  | Message
  | Commit (c : Commit)
  | Origin
  | Relation
  | Type
  | Insert (i : Insert)
  | Update (u : Update)
  | Delete (d : Delete)
  | Truncate
  | StreamStart
  | StreamStop
  | StreamCommit
  | StreamAbort
  | BeginPrepare
  | Prepare
  | CommitPrepared
  | RollbackPrepared
  | StreamPrepare
deriving DecidableEq, Repr

/-- `TupleData::decode`: 1-byte kind tag `n`(110) / `u`(117) / `t`(116) /
`b`(98); for `t`/`b` a 4-byte signed length, then `vec![0; len as usize]`
(capacity-overflow panic when `len < 0`, since `len as usize ≥ 2^64 - 2^31`
exceeds `isize::MAX`) filled by `read_exact`. -/
def TupleData.decode : Dec TupleData :=
  Dec.bind getU8 (fun tag =>
    match tag with
    | 110 => Dec.pure .Null
    | 117 => Dec.pure .UnchangedToast
    | 116 =>
        Dec.bind getI32 (fun len =>
          if len < 0 then Dec.panicWith "capacity overflow"
          else Dec.bind (readExact len.toNat) (fun d => Dec.pure (.Text d)))
    | 98 =>
        Dec.bind getI32 (fun len =>
          if len < 0 then Dec.panicWith "capacity overflow"
          else Dec.bind (readExact len.toNat) (fun d => Dec.pure (.Binary d)))
    | x => Dec.fail (.unknownTupleData x))

/-- The `for _ in 0..n_cols` loop of `Tuples::decode`. -/
def decodeTupleList : Nat → Dec (List TupleData)
  | 0 => Dec.pure []
  | n + 1 =>
      Dec.bind TupleData.decode (fun t =>
        Dec.bind (decodeTupleList n) (fun ts => Dec.pure (t :: ts)))

/-- `Tuples::decode`: 2-byte signed column count, then that many values.
`Vec::with_capacity(n_cols as usize)` panics with a capacity overflow when
`n_cols < 0` (sign-extended to `usize`, the element layout overflows). -/
def Tuples.decode : Dec Tuples :=
  Dec.bind getI16 (fun n =>
    if n < 0 then Dec.panicWith "capacity overflow"
    else Dec.bind (decodeTupleList n.toNat) (fun ts => Dec.pure ⟨ts⟩))

/-- `Commit::decode_with` as a cursor step. -/
def Commit.decodeD : Dec Commit :=
  Dec.bind getI64 (fun commit_lsn =>
    Dec.bind getI8 (fun flags =>
      Dec.bind getI64 (fun transaction_lsn =>
        Dec.bind getI64 (fun timestamp =>
          Dec.pure ⟨commit_lsn, flags, transaction_lsn, timestamp⟩))))

/-- `impl ProtocolDecode for Commit`. -/
def Commit.decode_with (buf : Buf) : Outcome Commit :=
  runDecode Commit.decodeD buf

/-- `Insert::decode_with` as a cursor step: `transaction_id`, `oid`, a
mandatory `'N'`(78) marker (else `err_protocol!("expected new data")`), then
the new tuple set. -/
def Insert.decodeD : Dec Insert :=
  Dec.bind getI32 (fun transaction_id =>
    Dec.bind getI32 (fun oid =>
      Dec.bind getU8 (fun m =>
        if m = 78 then
          Dec.bind Tuples.decode (fun d => Dec.pure ⟨transaction_id, oid, d⟩)
        else Dec.fail .expectedNewData)))

/-- `impl ProtocolDecode for Insert`. -/
def Insert.decode_with (buf : Buf) : Outcome Insert :=
  runDecode Insert.decodeD buf

/-- The `match buf.first()` arm of `Update::decode_with`: on `'K'`(75) or
`'O'`(79) consume the marker and decode a tuple set, otherwise consume
nothing.  Returns `(key_data, old_data)`. -/
def Update.optBranch (h : Option Nat) : Dec (Option Tuples × Option Tuples) :=
  match h with
  | some 75 =>
      Dec.bind advance1 (fun _ =>
        Dec.bind Tuples.decode (fun k => Dec.pure (some k, none)))
  | some 79 =>
      Dec.bind advance1 (fun _ =>
        Dec.bind Tuples.decode (fun o => Dec.pure (none, some o)))
  | _ => Dec.pure (none, none)

/-- `Update::decode_with` as a cursor step. -/
def Update.decodeD : Dec Update :=
  Dec.bind getI32 (fun transaction_id =>
    Dec.bind getI32 (fun oid =>
      Dec.bind (Dec.bind peekFirst Update.optBranch) (fun p =>
        Dec.bind getU8 (fun m =>
          if m = 78 then
            Dec.bind Tuples.decode (fun new_data =>
              Dec.pure ⟨transaction_id, oid, p.2, p.1, new_data⟩)
          else Dec.fail .expectedNewData))))

/-- `impl ProtocolDecode for Update`. -/
def Update.decode_with (buf : Buf) : Outcome Update :=
  runDecode Update.decodeD buf

/-- `Delete::decode_with` as a cursor step: `transaction_id`, `oid`, then one
unconditionally consumed byte switched on (`'K'`(75) / `'O'`(79) / anything
else silently keeps both optional fields empty). -/
def Delete.decodeD : Dec Delete :=
  Dec.bind getI32 (fun transaction_id =>
    Dec.bind getI32 (fun oid =>
      Dec.bind getU8 (fun m =>
        match m with
        | 75 => Dec.bind Tuples.decode (fun k =>
            Dec.pure ⟨transaction_id, oid, some k, none⟩)
        | 79 => Dec.bind Tuples.decode (fun o =>
            Dec.pure ⟨transaction_id, oid, none, some o⟩)
        | _ => Dec.pure ⟨transaction_id, oid, none, none⟩)))

/-- `impl ProtocolDecode for Delete`. -/
def Delete.decode_with (buf : Buf) : Outcome Delete :=
  runDecode Delete.decodeD buf

/-- `XLogData::decode_with` as a cursor step: three 8-byte big-endian signed
integers, then the rest of the buffer is moved into `data`. -/
def XLogData.decodeD : Dec XLogData :=
  Dec.bind getI64 (fun wal_start =>
    Dec.bind getI64 (fun wal_end =>
      Dec.bind getI64 (fun timestamp =>
        Dec.bind takeRest (fun data =>
          Dec.pure ⟨wal_start, wal_end, timestamp, data⟩))))

/-- `impl ProtocolDecode for XLogData`. -/
def XLogData.decode_with (buf : Buf) : Outcome XLogData :=
  runDecode XLogData.decodeD buf

/-- `PrimaryKeepalive::decode_with` as a cursor step. -/
def PrimaryKeepalive.decodeD : Dec PrimaryKeepalive :=
  Dec.bind getI64 (fun wal_end =>
    Dec.bind getI64 (fun timestamp =>
      Dec.bind getU8 (fun reply =>
        Dec.pure ⟨wal_end, timestamp, reply⟩)))

/-- `impl ProtocolDecode for PrimaryKeepalive`. -/
def PrimaryKeepalive.decode_with (buf : Buf) : Outcome PrimaryKeepalive :=
  runDecode PrimaryKeepalive.decodeD buf

/-- `impl ProtocolDecode for Replication`: read the 1-byte format tag
(`get_u8`, panics on an empty buffer), route `'w'`(119) to `XLogData` and
`'k'`(107) to `PrimaryKeepalive`, anything else is a protocol error citing
the byte. -/
def Replication.decode_with (buf : Buf) : Outcome Replication :=
  match getU8 buf with
  | .ok (format, rest) =>
      match format with
      | 119 => (XLogData.decode_with rest).map Replication.XLogData
      | 107 => (PrimaryKeepalive.decode_with rest).map Replication.PrimaryKeepalive
      | x => .err (.unknownReplication x)
  | .err e => .err e
  | .panic s => .panic s

/-- `impl ProtocolDecode for LogicalReplication`: read the 1-byte format tag,
then the 19-arm dispatch of the source. -/
def LogicalReplication.decode_with (buf : Buf) : Outcome LogicalReplication :=
  match getU8 buf with
  | .ok (format, rest) =>
      match format with
      | 66 => .ok .Begin
      | 77 => .ok .Message
      | 67 => (Commit.decode_with rest).map LogicalReplication.Commit
      | 79 => .ok .Origin
      | 82 => .ok .Relation
      | 89 => .ok .Type
      | 73 => (Insert.decode_with rest).map LogicalReplication.Insert
      | 85 => (Update.decode_with rest).map LogicalReplication.Update
      | 68 => (Delete.decode_with rest).map LogicalReplication.Delete
      | 84 => .ok .Truncate
      | 83 => .ok .StreamStart
      | 69 => .ok .StreamStop
      | 99 => .ok .StreamCommit
      | 65 => .ok .StreamAbort
      | 98 => .ok .BeginPrepare
      | 80 => .ok .Prepare
      | 75 => .ok .CommitPrepared
      | 114 => .ok .RollbackPrepared
      | 112 => .ok .StreamPrepare
      | x => .err (.unknownLogical x)
  | .err e => .err e
  | .panic s => .panic s

/-! ### Basic evaluation lemmas for the buffer primitives -/

theorem getBE_append (l rest : Buf) {n : Nat} (h : l.length = n) :
    getBE n (l ++ rest) = .ok (beBytes l, rest) := by
  subst h
  unfold getBE
  rw [if_pos (by simp)]
  rw [List.take_left, List.drop_left]

theorem getU8_cons (b : Nat) (rest : Buf) : getU8 (b :: rest) = .ok (b, rest) := by
  have h := getBE_append [b] rest (n := 1) rfl
  simpa [getU8, beBytes] using h

theorem getI8_append (l rest : Buf) (h : l.length = 1) :
    getI8 (l ++ rest) = .ok (toSigned 8 (beBytes l), rest) := by
  simp [getI8, Dec.bind, getBE_append l rest h, Dec.pure]

theorem getI16_append (l rest : Buf) (h : l.length = 2) :
    getI16 (l ++ rest) = .ok (toSigned 16 (beBytes l), rest) := by
  simp [getI16, Dec.bind, getBE_append l rest h, Dec.pure]

theorem getI32_append (l rest : Buf) (h : l.length = 4) :
    getI32 (l ++ rest) = .ok (toSigned 32 (beBytes l), rest) := by
  simp [getI32, Dec.bind, getBE_append l rest h, Dec.pure]

theorem getI64_append (l rest : Buf) (h : l.length = 8) :
    getI64 (l ++ rest) = .ok (toSigned 64 (beBytes l), rest) := by
  simp [getI64, Dec.bind, getBE_append l rest h, Dec.pure]

/-! ### Inversion lemmas for successful decoding steps -/

theorem Dec.bind_ok {m : Dec α} {f : α → Dec β} {buf : Buf} {b : β} {rest : Buf}
    (h : Dec.bind m f buf = .ok (b, rest)) :
    ∃ a buf2, m buf = .ok (a, buf2) ∧ f a buf2 = .ok (b, rest) := by
  unfold Dec.bind at h
  cases hm : m buf with
  | ok p => exact ⟨p.1, p.2, rfl, by rw [hm] at h; exact h⟩
  | err e => rw [hm] at h; simp at h
  | panic s => rw [hm] at h; simp at h

theorem Dec.pure_ok {a b : α} {buf rest : Buf} (h : Dec.pure a buf = .ok (b, rest)) :
    a = b ∧ buf = rest := by
  unfold Dec.pure at h
  simpa using h

theorem runDecode_ok {m : Dec α} {buf : Buf} {a : α}
    (h : runDecode m buf = .ok a) : ∃ rest, m buf = .ok (a, rest) := by
  unfold runDecode at h
  cases hm : m buf with
  | ok p => exact ⟨p.2, by rw [hm] at h; simp at h; rw [← h]⟩
  | err e => rw [hm] at h; simp at h
  | panic s => rw [hm] at h; simp at h

/-! ### Prefix monotonicity: a successful decode only looks at the bytes it
consumes, so appending bytes to the buffer does not change the result. -/

/-- A decoder's successful runs are stable under appending bytes. -/
def Mono (m : Dec α) : Prop :=
  ∀ buf a rest extra, m buf = .ok (a, rest) → m (buf ++ extra) = .ok (a, rest ++ extra)

theorem mono_pure (a : α) : Mono (Dec.pure a) := by
  intro buf x rest extra h
  simp only [Dec.pure, Outcome.ok.injEq, Prod.mk.injEq] at h ⊢
  exact ⟨h.1, by rw [h.2]⟩

theorem mono_fail (e : Error) : Mono (Dec.fail (α := α) e) := by
  intro buf x rest extra h
  simp [Dec.fail] at h

theorem mono_panicWith (s : String) : Mono (Dec.panicWith (α := α) s) := by
  intro buf x rest extra h
  simp [Dec.panicWith] at h

theorem mono_bind {m : Dec α} {f : α → Dec β} (hm : Mono m) (hf : ∀ a, Mono (f a)) :
    Mono (Dec.bind m f) := by
  intro buf b rest extra h
  obtain ⟨a, buf2, h1, h2⟩ := Dec.bind_ok h
  unfold Dec.bind
  rw [hm buf a buf2 extra h1]
  exact hf a buf2 b rest extra h2

theorem mono_getBE (n : Nat) : Mono (getBE n) := by
  intro buf a rest extra h
  unfold getBE at h ⊢
  by_cases hn : n ≤ buf.length
  · rw [if_pos hn] at h
    rw [if_pos (by simp; omega)]
    simp only [Outcome.ok.injEq, Prod.mk.injEq] at h ⊢
    refine ⟨by rw [List.take_append_of_le_length hn]; exact h.1, ?_⟩
    rw [List.drop_append_of_le_length hn, h.2]
  · rw [if_neg hn] at h
    simp at h

theorem mono_getU8 : Mono getU8 := mono_getBE 1

theorem mono_getI8 : Mono getI8 := mono_bind (mono_getBE 1) (fun _ => mono_pure _)

theorem mono_getI16 : Mono getI16 := mono_bind (mono_getBE 2) (fun _ => mono_pure _)

theorem mono_getI32 : Mono getI32 := mono_bind (mono_getBE 4) (fun _ => mono_pure _)

theorem mono_getI64 : Mono getI64 := mono_bind (mono_getBE 8) (fun _ => mono_pure _)

theorem mono_readExact (n : Nat) : Mono (readExact n) := by
  intro buf a rest extra h
  unfold readExact at h ⊢
  by_cases hn : n ≤ buf.length
  · rw [if_pos hn] at h
    rw [if_pos (by simp; omega)]
    simp only [Outcome.ok.injEq, Prod.mk.injEq] at h ⊢
    refine ⟨by rw [List.take_append_of_le_length hn]; exact h.1, ?_⟩
    rw [List.drop_append_of_le_length hn, h.2]
  · rw [if_neg hn] at h
    simp at h

theorem mono_tupleData : Mono TupleData.decode := by
  unfold TupleData.decode
  refine mono_bind mono_getU8 (fun tag => ?_)
  split
  · exact mono_pure _
  · exact mono_pure _
  · refine mono_bind mono_getI32 (fun len => ?_)
    split
    · exact mono_panicWith _
    · exact mono_bind (mono_readExact _) (fun d => mono_pure _)
  · refine mono_bind mono_getI32 (fun len => ?_)
    split
    · exact mono_panicWith _
    · exact mono_bind (mono_readExact _) (fun d => mono_pure _)
  · exact mono_fail _

theorem mono_tupleList (n : Nat) : Mono (decodeTupleList n) := by
  induction n with
  | zero => exact mono_pure _
  | succ n ih =>
      exact mono_bind mono_tupleData (fun t => mono_bind ih (fun ts => mono_pure _))

theorem mono_tuples : Mono Tuples.decode := by
  refine mono_bind mono_getI16 (fun n => ?_)
  split
  · exact mono_panicWith _
  · exact mono_bind (mono_tupleList _) (fun ts => mono_pure _)

theorem Dec.bind_assoc (m : Dec α) (g : α → Dec β) (k : β → Dec γ) :
    Dec.bind (Dec.bind m g) k = Dec.bind m (fun a => Dec.bind (g a) k) := by
  funext buf
  simp only [Dec.bind]
  cases m buf with
  | ok p => rfl
  | err e => rfl
  | panic s => rfl

/-- A peek (`buf.first()`) followed by a branch is still prefix-monotone,
provided the branch taken on an empty buffer never succeeds (in the Update
decoder it always reaches a `get_u8`, which panics on an empty buffer). -/
theorem mono_bindPeek {f : Option Nat → Dec α}
    (hf : ∀ h, Mono (f h)) (h0 : ∀ p, f none [] ≠ Outcome.ok p) :
    Mono (Dec.bind peekFirst f) := by
  intro buf a rest extra h
  cases buf with
  | nil => exact absurd (by simpa [Dec.bind, peekFirst] using h) (h0 (a, rest))
  | cons b r =>
      have h2 : f (some b) (b :: r) = .ok (a, rest) := by
        simpa [Dec.bind, peekFirst] using h
      have h3 := hf (some b) (b :: r) a rest extra h2
      simpa [Dec.bind, peekFirst] using h3

theorem mono_optBranch (h : Option Nat) : Mono (Update.optBranch h) := by
  unfold Update.optBranch
  split
  · refine mono_bind ?_ (fun _ => mono_bind mono_tuples (fun k => mono_pure _))
    intro buf a rest extra hadv
    cases buf with
    | nil => simp [advance1] at hadv
    | cons b r =>
        simp only [advance1, List.cons_append, Outcome.ok.injEq, Prod.mk.injEq] at hadv ⊢
        simp_all
  · refine mono_bind ?_ (fun _ => mono_bind mono_tuples (fun o => mono_pure _))
    intro buf a rest extra hadv
    cases buf with
    | nil => simp [advance1] at hadv
    | cons b r =>
        simp only [advance1, List.cons_append, Outcome.ok.injEq, Prod.mk.injEq] at hadv ⊢
        simp_all
  · exact mono_pure _

theorem mono_commit : Mono Commit.decodeD :=
  mono_bind mono_getI64 (fun _ => mono_bind mono_getI8 (fun _ =>
    mono_bind mono_getI64 (fun _ => mono_bind mono_getI64 (fun _ => mono_pure _))))

theorem mono_insert : Mono Insert.decodeD := by
  refine mono_bind mono_getI32 (fun txid => mono_bind mono_getI32 (fun oid =>
    mono_bind mono_getU8 (fun m => ?_)))
  split
  · exact mono_bind mono_tuples (fun d => mono_pure _)
  · exact mono_fail _

theorem mono_update : Mono Update.decodeD := by
  unfold Update.decodeD
  refine mono_bind mono_getI32 (fun txid => mono_bind mono_getI32 (fun oid => ?_))
  rw [Dec.bind_assoc]
  refine mono_bindPeek (fun h => ?_) (fun p hp => ?_)
  · refine mono_bind (mono_optBranch h) (fun q => ?_)
    refine mono_bind mono_getU8 (fun m => ?_)
    split
    · exact mono_bind mono_tuples (fun nd => mono_pure _)
    · exact mono_fail _
  · simp [Dec.bind, Update.optBranch, Dec.pure, getU8, getBE] at hp

theorem mono_delete : Mono Delete.decodeD := by
  refine mono_bind mono_getI32 (fun txid => mono_bind mono_getI32 (fun oid =>
    mono_bind mono_getU8 (fun m => ?_)))
  split
  · exact mono_bind mono_tuples (fun k => mono_pure _)
  · exact mono_bind mono_tuples (fun o => mono_pure _)
  · exact mono_pure _

/-- Lift prefix monotonicity through `runDecode`. -/
theorem runDecode_mono {m : Dec α} (hm : Mono m) (buf extra : Buf) (a : α)
    (h : runDecode m buf = .ok a) : runDecode m (buf ++ extra) = .ok a := by
  obtain ⟨rest, hr⟩ := runDecode_ok h
  unfold runDecode
  rw [hm buf a rest extra hr]

/-- The 19 tag bytes recognized by the `LogicalReplication::decode_with`
match: `B M C O R Y I U D T S E c A b P K r p`. -/
def logicalTags : Buf :=
  [66, 77, 67, 79, 82, 89, 73, 85, 68, 84, 83, 69, 99, 65, 98, 80, 75, 114, 112]

/-! ### The claims -/

/-- Claim C1 (code bug).  The claim says every public decode entry point is
total — typed message or typed error, never a panic/abort.  The code is not:
`Replication::decode_with` starts with `buf.get_u8()`, which panics on an
empty buffer (as the source's own `// TODO panics` comment concedes for the
analogous reads).  Evaluating the model at the failing inputs: the empty byte
sequence makes both dispatchers panic instead of returning an error. -/
theorem c1_entry_points_panic_on_empty :
    Replication.decode_with [] = .panic "advance past end" ∧
    LogicalReplication.decode_with [] = .panic "advance past end" := by
  constructor <;> rfl

/-- Claim C2 (code bug).  The claim says a negative TupleSet column count or
a negative Text/Binary length is turned into a ProtocolViolation before being
used as an allocation size.  The code instead sign-extends the negative value
to `usize` (`n_cols as usize`, `len as usize`) and feeds it to
`Vec::with_capacity` / `vec![0; …]`, which panics with a capacity overflow.
Evaluation at the failing inputs: column count `-1` (bytes `FF FF`) and Text
length `-1` (bytes `74 FF FF FF FF`). -/
theorem c2_negative_count_panics :
    Tuples.decode [255, 255] = .panic "capacity overflow" ∧
    TupleData.decode [116, 255, 255, 255, 255] = .panic "capacity overflow" := by
  constructor <;> rfl

/-- Claim C3 (code bug).  The claim says a buffer shorter than the fixed
fields (17 bytes after `'k'`, 24 bytes after `'w'`) yields a
BufferUnderrun/IO error.  The `bytes::Buf` getters panic instead of
returning an error, so the decode never returns at all.  (The other half of
the claim — no wrong-but-successful parse — does hold: a panic is not an
`ok`.)  Evaluation at failing inputs: `['k']` with 0 of the 17 required
bytes, and `['w']` followed by only 23 bytes. -/
theorem c3_short_buffer_panics :
    Replication.decode_with [107] = .panic "advance past end" ∧
    Replication.decode_with (119 :: List.replicate 23 0) = .panic "advance past end" ∧
    (∀ rest : Buf, rest.length < 17 →
      ∀ k : PrimaryKeepalive, PrimaryKeepalive.decode_with rest ≠ .ok k) ∧
    (∀ rest : Buf, rest.length < 24 →
      ∀ x : XLogData, XLogData.decode_with rest ≠ .ok x) := by
  refine ⟨rfl, by rfl, ?_, ?_⟩
  · intro rest hlen k h
    obtain ⟨r, hr⟩ := runDecode_ok h
    obtain ⟨v1, b1, h1, hr⟩ := Dec.bind_ok hr
    obtain ⟨w1, c1, hw1, hp1⟩ := Dec.bind_ok h1
    obtain ⟨v2, b2, h2, hr⟩ := Dec.bind_ok hr
    obtain ⟨w2, c2, hw2, hp2⟩ := Dec.bind_ok h2
    obtain ⟨v3, b3, h3, hr⟩ := Dec.bind_ok hr
    unfold getBE at hw1 hw2
    unfold getU8 getBE at h3
    by_cases ha : 8 ≤ rest.length
    · rw [if_pos ha] at hw1
      simp only [Outcome.ok.injEq, Prod.mk.injEq] at hw1
      obtain ⟨-, rfl⟩ := hw1
      obtain ⟨-, rfl⟩ := Dec.pure_ok hp1
      by_cases hb : 8 ≤ (rest.drop 8).length
      · rw [if_pos hb] at hw2
        simp only [Outcome.ok.injEq, Prod.mk.injEq] at hw2
        obtain ⟨-, rfl⟩ := hw2
        obtain ⟨-, rfl⟩ := Dec.pure_ok hp2
        have : ((rest.drop 8).drop 8).length = 0 := by
          simp only [List.length_drop]
          omega
        rw [if_neg (by omega)] at h3
        simp at h3
      · rw [if_neg hb] at hw2
        simp at hw2
    · rw [if_neg ha] at hw1
      simp at hw1
  · intro rest hlen x h
    obtain ⟨r, hr⟩ := runDecode_ok h
    obtain ⟨v1, b1, h1, hr⟩ := Dec.bind_ok hr
    obtain ⟨w1, c1, hw1, hp1⟩ := Dec.bind_ok h1
    obtain ⟨v2, b2, h2, hr⟩ := Dec.bind_ok hr
    obtain ⟨w2, c2, hw2, hp2⟩ := Dec.bind_ok h2
    obtain ⟨v3, b3, h3, hr⟩ := Dec.bind_ok hr
    obtain ⟨w3, c3, hw3, hp3⟩ := Dec.bind_ok h3
    unfold getBE at hw1 hw2 hw3
    by_cases ha : 8 ≤ rest.length
    · rw [if_pos ha] at hw1
      simp only [Outcome.ok.injEq, Prod.mk.injEq] at hw1
      obtain ⟨-, rfl⟩ := hw1
      obtain ⟨-, rfl⟩ := Dec.pure_ok hp1
      by_cases hb : 8 ≤ (rest.drop 8).length
      · rw [if_pos hb] at hw2
        simp only [Outcome.ok.injEq, Prod.mk.injEq] at hw2
        obtain ⟨-, rfl⟩ := hw2
        obtain ⟨-, rfl⟩ := Dec.pure_ok hp2
        rw [if_neg (by simp only [List.length_drop]; omega)] at hw3
        simp at hw3
      · rw [if_neg hb] at hw2
        simp at hw2
    · rw [if_neg ha] at hw1
      simp at hw1

/-- Witness for C3: the hypothesis-bearing halves applied to the empty
buffer. -/
theorem c3_short_buffer_panics_witness :
    PrimaryKeepalive.decode_with [] ≠ .ok ⟨0, 0, 0⟩ ∧
    XLogData.decode_with [] ≠ .ok ⟨0, 0, 0, []⟩ :=
  ⟨c3_short_buffer_panics.2.2.1 [] (by decide) ⟨0, 0, 0⟩,
   c3_short_buffer_panics.2.2.2 [] (by decide) ⟨0, 0, 0, []⟩⟩

/-- Claim C7 (confirmed).  At each tag-dispatch point an unrecognized tag
byte produces the protocol error citing that byte, and the replication
dispatcher routes `'w'`(119) to `XLogData::decode_with` and `'k'`(107) to
`PrimaryKeepalive::decode_with`. -/
theorem c7_tag_dispatch (b : Nat) (rest : Buf) :
    (b ≠ 119 → b ≠ 107 →
      Replication.decode_with (b :: rest) = .err (.unknownReplication b)) ∧
    (Replication.decode_with (119 :: rest) =
      (XLogData.decode_with rest).map Replication.XLogData) ∧
    (Replication.decode_with (107 :: rest) =
      (PrimaryKeepalive.decode_with rest).map Replication.PrimaryKeepalive) ∧
    (b ∉ logicalTags →
      LogicalReplication.decode_with (b :: rest) = .err (.unknownLogical b)) ∧
    (b ≠ 110 → b ≠ 117 → b ≠ 116 → b ≠ 98 →
      TupleData.decode (b :: rest) = .err (.unknownTupleData b)) := by
  refine ⟨?_, ?_, ?_, ?_, ?_⟩
  · intro h119 h107
    simp only [Replication.decode_with, getU8_cons]
  · simp only [Replication.decode_with, getU8_cons]
  · simp only [Replication.decode_with, getU8_cons]
  · intro hmem
    simp only [logicalTags, List.mem_cons, List.not_mem_nil, or_false] at hmem
    push_neg at hmem
    obtain ⟨n1, n2, n3, n4, n5, n6, n7, n8, n9, n10, n11, n12, n13, n14, n15,
      n16, n17, n18, n19⟩ := hmem
    simp only [LogicalReplication.decode_with, getU8_cons]
  · intro h110 h117 h116 h98
    simp only [TupleData.decode, Dec.bind, getU8_cons, Dec.fail]

/-- Witness for C7: the dispatch facts at the concrete byte `'?'`(63). -/
theorem c7_tag_dispatch_witness :
    Replication.decode_with [63] = .err (.unknownReplication 63) ∧
    LogicalReplication.decode_with [63] = .err (.unknownLogical 63) ∧
    TupleData.decode [63] = .err (.unknownTupleData 63) ∧
    Replication.decode_with [119] = (XLogData.decode_with []).map Replication.XLogData ∧
    Replication.decode_with [107] =
      (PrimaryKeepalive.decode_with []).map Replication.PrimaryKeepalive :=
  ⟨(c7_tag_dispatch 63 []).1 (by decide) (by decide),
   (c7_tag_dispatch 63 []).2.2.2.1 (by decide),
   (c7_tag_dispatch 63 []).2.2.2.2 (by decide) (by decide) (by decide) (by decide),
   (c7_tag_dispatch 63 []).2.1,
   (c7_tag_dispatch 63 []).2.2.1⟩

/-- Claim C8 (confirmed).  `XLogData::decode_with` reads `wal_start`,
`wal_end`, `timestamp` as three big-endian 8-byte signed integers in that
order and keeps every remaining byte, uninterpreted, as the payload. -/
theorem c8_xlogdata_layout (w1 w2 w3 rest : Buf)
    (h1 : w1.length = 8) (h2 : w2.length = 8) (h3 : w3.length = 8) :
    Replication.decode_with (119 :: (w1 ++ w2 ++ w3 ++ rest)) =
      .ok (.XLogData
        ⟨toSigned 64 (beBytes w1), toSigned 64 (beBytes w2),
         toSigned 64 (beBytes w3), rest⟩) := by
  simp only [Replication.decode_with, getU8_cons]
  have hD : XLogData.decodeD (w1 ++ (w2 ++ (w3 ++ rest))) =
      .ok (⟨toSigned 64 (beBytes w1), toSigned 64 (beBytes w2),
            toSigned 64 (beBytes w3), rest⟩, []) := by
    simp only [XLogData.decodeD, Dec.bind, getI64_append w1 _ h1,
      getI64_append w2 _ h2, getI64_append w3 _ h3, takeRest, Dec.pure]
  simp [XLogData.decode_with, runDecode, hD, Outcome.map]

/-- Witness for C8: the spec's Scenario 2 byte string
`['w', i64(10), i64(20), i64(5), 0x42, 0x43]`. -/
theorem c8_xlogdata_layout_witness :
    Replication.decode_with
      (119 :: ([0, 0, 0, 0, 0, 0, 0, 10] ++ [0, 0, 0, 0, 0, 0, 0, 20] ++
        [0, 0, 0, 0, 0, 0, 0, 5] ++ [66, 67])) =
      .ok (.XLogData ⟨10, 20, 5, [66, 67]⟩) :=
  (c8_xlogdata_layout [0, 0, 0, 0, 0, 0, 0, 10] [0, 0, 0, 0, 0, 0, 0, 20]
    [0, 0, 0, 0, 0, 0, 0, 5] [66, 67] rfl rfl rfl).trans (by decide)

/-- Claim C9 (confirmed).  `TupleData::decode` maps `'n'`(110) to `Null` and
`'u'`(117) to `UnchangedToast` with no further bytes read; on `'t'`(116) /
`'b'`(98) it reads a 4-byte signed length and then exactly that many payload
bytes, and when fewer bytes remain than the (non-negative) declared length it
fails with the IO/underflow error and never returns a partial value.  (A
negative declared length is the separate allocation hazard of claim C2.) -/
theorem c9_tuple_value (rest : Buf) :
    TupleData.decode (110 :: rest) = .ok (.Null, rest) ∧
    TupleData.decode (117 :: rest) = .ok (.UnchangedToast, rest) ∧
    (∀ l4 : Buf, l4.length = 4 → 0 ≤ toSigned 32 (beBytes l4) →
      ((toSigned 32 (beBytes l4)).toNat ≤ rest.length →
        TupleData.decode (116 :: (l4 ++ rest)) =
          .ok (.Text (rest.take (toSigned 32 (beBytes l4)).toNat),
               rest.drop (toSigned 32 (beBytes l4)).toNat)) ∧
      (rest.length < (toSigned 32 (beBytes l4)).toNat →
        TupleData.decode (116 :: (l4 ++ rest)) = .err .ioError)) ∧
    (∀ l4 : Buf, l4.length = 4 → 0 ≤ toSigned 32 (beBytes l4) →
      ((toSigned 32 (beBytes l4)).toNat ≤ rest.length →
        TupleData.decode (98 :: (l4 ++ rest)) =
          .ok (.Binary (rest.take (toSigned 32 (beBytes l4)).toNat),
               rest.drop (toSigned 32 (beBytes l4)).toNat)) ∧
      (rest.length < (toSigned 32 (beBytes l4)).toNat →
        TupleData.decode (98 :: (l4 ++ rest)) = .err .ioError)) := by
  refine ⟨?_, ?_, ?_, ?_⟩
  · simp [TupleData.decode, Dec.bind, getU8_cons, Dec.pure]
  · simp [TupleData.decode, Dec.bind, getU8_cons, Dec.pure]
  · intro l4 hl hL
    constructor
    · intro hle
      simp only [TupleData.decode, Dec.bind, getU8_cons, getI32_append l4 _ hl]
      rw [if_neg (by omega)]
      simp only [Dec.bind, readExact]
      rw [if_pos hle]
      simp [Dec.pure]
    · intro hlt
      simp only [TupleData.decode, Dec.bind, getU8_cons, getI32_append l4 _ hl]
      rw [if_neg (by omega)]
      simp only [Dec.bind, readExact]
      rw [if_neg (by omega)]
  · intro l4 hl hL
    constructor
    · intro hle
      simp only [TupleData.decode, Dec.bind, getU8_cons, getI32_append l4 _ hl]
      rw [if_neg (by omega)]
      simp only [Dec.bind, readExact]
      rw [if_pos hle]
      simp [Dec.pure]
    · intro hlt
      simp only [TupleData.decode, Dec.bind, getU8_cons, getI32_append l4 _ hl]
      rw [if_neg (by omega)]
      simp only [Dec.bind, readExact]
      rw [if_neg (by omega)]

/-- Witness for C9: the four tag kinds and the underflow cases at concrete
bytes. -/
theorem c9_tuple_value_witness :
    TupleData.decode (110 :: [5]) = .ok (.Null, [5]) ∧
    TupleData.decode (117 :: []) = .ok (.UnchangedToast, []) ∧
    TupleData.decode (116 :: ([0, 0, 0, 1] ++ [120, 99])) = .ok (.Text [120], [99]) ∧
    TupleData.decode (116 :: ([0, 0, 0, 5] ++ [1, 2])) = .err .ioError ∧
    TupleData.decode (98 :: ([0, 0, 0, 2] ++ [7, 8])) = .ok (.Binary [7, 8], []) ∧
    TupleData.decode (98 :: ([0, 0, 0, 9] ++ [])) = .err .ioError :=
  ⟨(c9_tuple_value [5]).1,
   (c9_tuple_value []).2.1,
   (((c9_tuple_value [120, 99]).2.2.1 [0, 0, 0, 1] rfl (by decide)).1
     (by decide)).trans (by decide),
   ((c9_tuple_value [1, 2]).2.2.1 [0, 0, 0, 5] rfl (by decide)).2 (by decide),
   (((c9_tuple_value [7, 8]).2.2.2 [0, 0, 0, 2] rfl (by decide)).1
     (by decide)).trans (by decide),
   ((c9_tuple_value []).2.2.2 [0, 0, 0, 9] rfl (by decide)).2 (by decide)⟩

/-- The optional `'K'`/`'O'` section of the Update decoder never produces
both a key image and an old-row image. -/
theorem optBranch_shape (h : Option Nat) (buf : Buf)
    (p : Option Tuples × Option Tuples) (rest : Buf)
    (hob : Update.optBranch h buf = .ok (p, rest)) :
    p.1 = none ∨ p.2 = none := by
  unfold Update.optBranch at hob
  split at hob
  · obtain ⟨-, b1, -, hob⟩ := Dec.bind_ok hob
    obtain ⟨k, b2, -, hob⟩ := Dec.bind_ok hob
    obtain ⟨hp, -⟩ := Dec.pure_ok hob
    right
    rw [← hp]
  · obtain ⟨-, b1, -, hob⟩ := Dec.bind_ok hob
    obtain ⟨o, b2, -, hob⟩ := Dec.bind_ok hob
    obtain ⟨hp, -⟩ := Dec.pure_ok hob
    left
    rw [← hp]
  · obtain ⟨hp, -⟩ := Dec.pure_ok hob
    left
    rw [← hp]

/-- Claim C4 (confirmed).  A successfully decoded Update or Delete never has
both `key_data` and `old_data` populated. -/
theorem c4_mutual_exclusion :
    (∀ buf u, Update.decode_with buf = .ok u →
      u.key_data = none ∨ u.old_data = none) ∧
    (∀ buf d, Delete.decode_with buf = .ok d →
      d.key_data = none ∨ d.old_data = none) := by
  constructor
  · intro buf u h
    obtain ⟨r, hr⟩ := runDecode_ok h
    obtain ⟨txid, b1, h1, hr⟩ := Dec.bind_ok hr
    obtain ⟨oid, b2, h2, hr⟩ := Dec.bind_ok hr
    obtain ⟨p, b3, h3, hr⟩ := Dec.bind_ok hr
    obtain ⟨m, b4, h4, hr⟩ := Dec.bind_ok hr
    by_cases hm : m = 78
    · rw [if_pos hm] at hr
      obtain ⟨nd, b5, h5, hr⟩ := Dec.bind_ok hr
      obtain ⟨hu, -⟩ := Dec.pure_ok hr
      obtain ⟨hd, b2', hpk, hob⟩ := Dec.bind_ok h3
      rcases optBranch_shape hd b2' p b3 hob with hp | hp
      · left
        rw [← hu]
        simpa using hp
      · right
        rw [← hu]
        simpa using hp
    · rw [if_neg hm] at hr
      simp [Dec.fail] at hr
  · intro buf d h
    obtain ⟨r, hr⟩ := runDecode_ok h
    obtain ⟨txid, b1, h1, hr⟩ := Dec.bind_ok hr
    obtain ⟨oid, b2, h2, hr⟩ := Dec.bind_ok hr
    obtain ⟨m, b3, h3, hr⟩ := Dec.bind_ok hr
    by_cases h75 : m = 75
    · subst h75
      obtain ⟨k, b4, h4, hr⟩ := Dec.bind_ok hr
      obtain ⟨hd2, -⟩ := Dec.pure_ok hr
      right
      rw [← hd2]
    · by_cases h79 : m = 79
      · subst h79
        obtain ⟨o, b4, h4, hr⟩ := Dec.bind_ok hr
        obtain ⟨hd2, -⟩ := Dec.pure_ok hr
        left
        rw [← hd2]
      · simp only [Dec.pure, Outcome.ok.injEq, Prod.mk.injEq] at hr
        left
        rw [← hr.1]

/-- Witness for C4: a decodable Update (`'N'` + empty tuple set directly) and
a decodable Delete (unrecognized marker byte `0`). -/
theorem c4_mutual_exclusion_witness :
    ((⟨1, 16400, none, none, ⟨[]⟩⟩ : Update).key_data = none ∨
      (⟨1, 16400, none, none, ⟨[]⟩⟩ : Update).old_data = none) ∧
    ((⟨1, 16400, none, none⟩ : Delete).key_data = none ∨
      (⟨1, 16400, none, none⟩ : Delete).old_data = none) :=
  ⟨c4_mutual_exclusion.1 [0, 0, 0, 1, 0, 0, 64, 16, 78, 0, 0] _ (by decide),
   c4_mutual_exclusion.2 [0, 0, 0, 1, 0, 0, 64, 16, 0] _ (by decide)⟩

/-- Claim C5 (confirmed).  After `transaction_id` and `relation_oid` the
Update decoder peeks at the next byte: `'K'`(75) is consumed and one tuple
set goes to `key_data` (`old_data` stays `none`); `'O'`(79) is consumed and
one tuple set goes to `old_data` (`key_data` stays `none`); any other byte is
left unconsumed with both `none` — so that same byte is then checked against
the mandatory `'N'`(78): a non-`'N'` byte there is the "expected new data"
protocol error, and on `'N'` the mandatory `new_data` tuple set is decoded. -/
theorem c5_update_optional_section (t o : Buf) (ht : t.length = 4)
    (ho : o.length = 4) :
    (∀ r2 kd r3 nd r4, Tuples.decode r2 = .ok (kd, 78 :: r3) →
      Tuples.decode r3 = .ok (nd, r4) →
      Update.decode_with (t ++ o ++ 75 :: r2) =
        .ok ⟨toSigned 32 (beBytes t), toSigned 32 (beBytes o), none, some kd, nd⟩) ∧
    (∀ r2 od r3 nd r4, Tuples.decode r2 = .ok (od, 78 :: r3) →
      Tuples.decode r3 = .ok (nd, r4) →
      Update.decode_with (t ++ o ++ 79 :: r2) =
        .ok ⟨toSigned 32 (beBytes t), toSigned 32 (beBytes o), some od, none, nd⟩) ∧
    (∀ r2 nd r3, Tuples.decode r2 = .ok (nd, r3) →
      Update.decode_with (t ++ o ++ 78 :: r2) =
        .ok ⟨toSigned 32 (beBytes t), toSigned 32 (beBytes o), none, none, nd⟩) ∧
    (∀ b r2, b ≠ 75 → b ≠ 79 → b ≠ 78 →
      Update.decode_with (t ++ o ++ b :: r2) = .err .expectedNewData) ∧
    (∀ r2 kd b r3, Tuples.decode r2 = .ok (kd, b :: r3) → b ≠ 78 →
      Update.decode_with (t ++ o ++ 75 :: r2) = .err .expectedNewData) := by
  refine ⟨?_, ?_, ?_, ?_, ?_⟩
  · intro r2 kd r3 nd r4 hk hn
    rw [List.append_assoc]
    simp [Update.decode_with, runDecode, Update.decodeD, Dec.bind,
      getI32_append t _ ht, getI32_append o _ ho, peekFirst,
      Update.optBranch, advance1, hk, getU8_cons, hn, Dec.pure]
  · intro r2 od r3 nd r4 hk hn
    rw [List.append_assoc]
    simp [Update.decode_with, runDecode, Update.decodeD, Dec.bind,
      getI32_append t _ ht, getI32_append o _ ho, peekFirst,
      Update.optBranch, advance1, hk, getU8_cons, hn, Dec.pure]
  · intro r2 nd r3 hn
    rw [List.append_assoc]
    simp [Update.decode_with, runDecode, Update.decodeD, Dec.bind,
      getI32_append t _ ht, getI32_append o _ ho, peekFirst,
      Update.optBranch, getU8_cons, hn, Dec.pure]
  · intro b r2 h75 h79 h78
    rw [List.append_assoc]
    simp [Update.decode_with, runDecode, Update.decodeD, Dec.bind,
      getI32_append t _ ht, getI32_append o _ ho, peekFirst,
      Update.optBranch, getU8_cons, Dec.pure, Dec.fail, h75, h79, h78]
  · intro r2 kd b r3 hk h78
    rw [List.append_assoc]
    simp [Update.decode_with, runDecode, Update.decodeD, Dec.bind,
      getI32_append t _ ht, getI32_append o _ ho, peekFirst,
      Update.optBranch, advance1, hk, getU8_cons, Dec.pure, Dec.fail, h78]

/-- Witness for C5: the spec's Scenario 5 (key image plus one text column in
both sections), and an unrecognized marker byte `'B'`(66) in place of the
`'N'` marker. -/
theorem c5_update_optional_section_witness :
    Update.decode_with ([0, 0, 0, 1] ++ [0, 0, 64, 16] ++
        75 :: [0, 1, 116, 0, 0, 0, 1, 120, 78, 0, 1, 116, 0, 0, 0, 1, 121]) =
      .ok ⟨1, 16400, none, some ⟨[.Text [120]]⟩, ⟨[.Text [121]]⟩⟩ ∧
    Update.decode_with ([0, 0, 0, 1] ++ [0, 0, 64, 16] ++ 66 :: []) =
      .err .expectedNewData :=
  ⟨((c5_update_optional_section [0, 0, 0, 1] [0, 0, 64, 16] rfl rfl).1
      [0, 1, 116, 0, 0, 0, 1, 120, 78, 0, 1, 116, 0, 0, 0, 1, 121]
      ⟨[.Text [120]]⟩ [0, 1, 116, 0, 0, 0, 1, 121] ⟨[.Text [121]]⟩ []
      (by decide) (by decide)).trans (by decide),
   (c5_update_optional_section [0, 0, 0, 1] [0, 0, 64, 16] rfl rfl).2.2.2.1
      66 [] (by decide) (by decide) (by decide)⟩

/-- Claim C6 (confirmed).  After `transaction_id` and `relation_oid` the
Delete decoder unconditionally consumes one byte and switches on it:
`'K'`(75) decodes `key_data`, `'O'`(79) decodes `old_data`, and any other
byte leaves both `none` — the consumed byte is discarded, no error is
raised, and the decode succeeds with no new-row section (whatever follows). -/
theorem c6_delete_marker (t o : Buf) (ht : t.length = 4) (ho : o.length = 4) :
    (∀ r2 kd r3, Tuples.decode r2 = .ok (kd, r3) →
      Delete.decode_with (t ++ o ++ 75 :: r2) =
        .ok ⟨toSigned 32 (beBytes t), toSigned 32 (beBytes o), some kd, none⟩) ∧
    (∀ r2 od r3, Tuples.decode r2 = .ok (od, r3) →
      Delete.decode_with (t ++ o ++ 79 :: r2) =
        .ok ⟨toSigned 32 (beBytes t), toSigned 32 (beBytes o), none, some od⟩) ∧
    (∀ b r2, b ≠ 75 → b ≠ 79 →
      Delete.decode_with (t ++ o ++ b :: r2) =
        .ok ⟨toSigned 32 (beBytes t), toSigned 32 (beBytes o), none, none⟩) := by
  refine ⟨?_, ?_, ?_⟩
  · intro r2 kd r3 hk
    rw [List.append_assoc]
    simp [Delete.decode_with, runDecode, Delete.decodeD, Dec.bind,
      getI32_append t _ ht, getI32_append o _ ho, getU8_cons, hk, Dec.pure]
  · intro r2 od r3 hk
    rw [List.append_assoc]
    simp [Delete.decode_with, runDecode, Delete.decodeD, Dec.bind,
      getI32_append t _ ht, getI32_append o _ ho, getU8_cons, hk, Dec.pure]
  · intro b r2 h75 h79
    rw [List.append_assoc]
    simp [Delete.decode_with, runDecode, Delete.decodeD, Dec.bind,
      getI32_append t _ ht, getI32_append o _ ho, getU8_cons, Dec.pure, h75, h79]

/-- Witness for C6: a Delete with a key image, and one with the unrecognized
marker byte `0xFF` followed by junk. -/
theorem c6_delete_marker_witness :
    Delete.decode_with ([0, 0, 0, 1] ++ [0, 0, 64, 16] ++ 75 :: [0, 0]) =
      .ok ⟨1, 16400, some ⟨[]⟩, none⟩ ∧
    Delete.decode_with ([0, 0, 0, 1] ++ [0, 0, 64, 16] ++ 255 :: [9, 9]) =
      .ok ⟨1, 16400, none, none⟩ :=
  ⟨((c6_delete_marker [0, 0, 0, 1] [0, 0, 64, 16] rfl rfl).1 [0, 0] ⟨[]⟩ []
      (by decide)).trans (by decide),
   ((c6_delete_marker [0, 0, 0, 1] [0, 0, 64, 16] rfl rfl).2.2 255 [9, 9]
      (by decide) (by decide)).trans (by decide)⟩

/-- Claim C10 (confirmed).  For Commit, Insert, Update and Delete a
successful decode depends only on the consumed prefix: appending arbitrary
trailing bytes to a decodable message still succeeds with the same result. -/
theorem c10_trailing_bytes_ignored :
    (∀ buf extra c, Commit.decode_with buf = .ok c →
      Commit.decode_with (buf ++ extra) = .ok c) ∧
    (∀ buf extra i, Insert.decode_with buf = .ok i →
      Insert.decode_with (buf ++ extra) = .ok i) ∧
    (∀ buf extra u, Update.decode_with buf = .ok u →
      Update.decode_with (buf ++ extra) = .ok u) ∧
    (∀ buf extra d, Delete.decode_with buf = .ok d →
      Delete.decode_with (buf ++ extra) = .ok d) :=
  ⟨fun buf extra c => runDecode_mono mono_commit buf extra c,
   fun buf extra i => runDecode_mono mono_insert buf extra i,
   fun buf extra u => runDecode_mono mono_update buf extra u,
   fun buf extra d => runDecode_mono mono_delete buf extra d⟩

/-- Witness for C10: the spec's Scenario 3 Commit body and Scenario 5 Update
body with three junk bytes appended decode to the same messages. -/
theorem c10_trailing_bytes_ignored_witness :
    Commit.decode_with
      (([0, 0, 0, 0, 0, 0, 0, 100] ++ [0] ++ [0, 0, 0, 0, 0, 0, 0, 110] ++
        [0, 0, 0, 0, 0, 0, 3, 231]) ++ [1, 2, 3]) = .ok ⟨100, 0, 110, 999⟩ ∧
    Update.decode_with
      ([0, 0, 0, 1, 0, 0, 64, 16, 78, 0, 0] ++ [250, 251]) =
      .ok ⟨1, 16400, none, none, ⟨[]⟩⟩ :=
  ⟨c10_trailing_bytes_ignored.1
      ([0, 0, 0, 0, 0, 0, 0, 100] ++ [0] ++ [0, 0, 0, 0, 0, 0, 0, 110] ++
        [0, 0, 0, 0, 0, 0, 3, 231]) [1, 2, 3] ⟨100, 0, 110, 999⟩ (by decide),
   c10_trailing_bytes_ignored.2.2.1
      [0, 0, 0, 1, 0, 0, 64, 16, 78, 0, 0] [250, 251]
      ⟨1, 16400, none, none, ⟨[]⟩⟩ (by decide)⟩

end Pg
